import Mathlib

/-
Verification of the compressed path representation (geometry/src/outline.rs):
contours as flat point/flag arrays, segment reconstruction, bounds
maintenance, outline construction from segment streams, and the packed
point index.  Coordinates are embedded as exact integers: the source
stores f32 values, but every operation verified here uses only ordering
(min/max), copying and subtraction of coordinates, which agree with the
float behaviour on the exactly representable inputs considered.
-/

namespace Pathfinder

/-- A 2D point (source: Point2DF32, crate::point, not included under src;
modelled from the spec: "ordered sequence of 2D floating-point coordinates"). -/
structure Point2DF32 where
  x : Int
  y : Int
deriving DecidableEq, Repr

/-- A line segment given by two points (source: LineSegmentF32,
crate::line_segment, not included under src; modelled from the spec:
"the straight chord connecting a segment's start and end endpoints"). -/
structure LineSegmentF32 where
  fromPt : Point2DF32
  toPt : Point2DF32
deriving DecidableEq, Repr

/-- Per-point role flags: a bit set with the two control-point bits
(source: `bitflags! PointFlags`). -/
structure PointFlags where
  cp0 : Bool
  cp1 : Bool
deriving DecidableEq, Repr

/-- The empty flag set (an endpoint). -/
def PointFlags.empty : PointFlags := ⟨false, false⟩

/-- The CONTROL_POINT_0 bit. -/
def PointFlags.CONTROL_POINT_0 : PointFlags := ⟨true, false⟩

/-- The CONTROL_POINT_1 bit. -/
def PointFlags.CONTROL_POINT_1 : PointFlags := ⟨false, true⟩

/-- An axis-aligned box with origin and size (euclid `Rect<f32>`,
external dependency; modelled from the spec's bounding boxes). -/
structure Rect where
  originX : Int
  originY : Int
  width : Int
  height : Int
deriving DecidableEq, Repr

/-- The zero rectangle (`Rect::zero()`). -/
def Rect.zero : Rect := ⟨0, 0, 0, 0⟩

/-- Right edge of a rectangle (`Rect::max_x`). -/
def Rect.maxX (r : Rect) : Int := r.originX + r.width

/-- Bottom edge of a rectangle (`Rect::max_y`). -/
def Rect.maxY (r : Rect) : Int := r.originY + r.height

/-- Modelled from the spec: the encompassing union of two axis-aligned
boxes (euclid `Rect::union`, external dependency whose source is not part
of this repository); per the spec the outline aggregate is "the union of
all flushed contours' bounds", an associative, commutative union. -/
def Rect.union (a b : Rect) : Rect :=
  let ox := min a.originX b.originX
  let oy := min a.originY b.originY
  let mx := max a.maxX b.maxX
  let my := max a.maxY b.maxY
  ⟨ox, oy, mx - ox, my - oy⟩

/-- Segment kinds (source: SegmentKind, crate::segment, not included under
src; modelled from the spec: "a discriminated value over four shapes"). -/
inductive SegmentKind where
  | none
  | line
  | quadratic
  | cubic
deriving DecidableEq, Repr

/-- Segment stream flags (source: SegmentFlags, crate::segment, not
included under src; modelled from the spec: "two flag bits ...
first-in-subpath and closes-subpath"). -/
structure SegmentFlags where
  first_in_subpath : Bool
  closes_subpath : Bool
deriving DecidableEq, Repr

/-- No segment flags set. -/
def SegmentFlags.empty : SegmentFlags := ⟨false, false⟩

/-- A path segment (source: Segment, crate::segment, not included under
src; modelled from the spec: a baseline chord, up to two control points
held in a second chord, a kind, and the two subpath flags). -/
structure Segment where
  baseline : LineSegmentF32
  ctrl : LineSegmentF32
  kind : SegmentKind
  flags : SegmentFlags
deriving DecidableEq, Repr

/-- Modelled from the spec: `Segment::line` builds a line segment from a
baseline; the control chord is unused for lines and left at the origin. -/
def Segment.line (b : LineSegmentF32) : Segment :=
  { baseline := b, ctrl := ⟨⟨0, 0⟩, ⟨0, 0⟩⟩, kind := SegmentKind.line,
    flags := SegmentFlags.empty }

/-- Modelled from the spec: `Segment::quadratic` builds a quadratic
segment from a baseline and its single control point (stored as the
`from` end of the control chord; the `to` end is unused). -/
def Segment.quadratic (b : LineSegmentF32) (c : Point2DF32) : Segment :=
  { baseline := b, ctrl := ⟨c, ⟨0, 0⟩⟩, kind := SegmentKind.quadratic,
    flags := SegmentFlags.empty }

/-- Modelled from the spec: `Segment::cubic` builds a cubic segment from a
baseline and the chord holding its two control points. -/
def Segment.cubic (b cs : LineSegmentF32) : Segment :=
  { baseline := b, ctrl := cs, kind := SegmentKind.cubic,
    flags := SegmentFlags.empty }

/-- Incremental bounds update (source: `union_rect`): on the first point
the box is reset to a zero-size box at the point, otherwise the box is
widened by min/max to cover the new point. -/
def union_rect (bounds : Rect) (newPoint : Point2DF32) (first : Bool) : Rect :=
  if first then ⟨newPoint.x, newPoint.y, 0, 0⟩
  else
    let minX := min bounds.originX newPoint.x
    let minY := min bounds.originY newPoint.y
    let maxX := max bounds.maxX newPoint.x
    let maxY := max bounds.maxY newPoint.y
    ⟨minX, minY, maxX - minX, maxY - minY⟩

/-- One closed sub-path: points, 1:1 role flags, and a cached bounding
box (source: `struct Contour`). -/
structure Contour where
  points : List Point2DF32
  flags : List PointFlags
  bounds : Rect
deriving DecidableEq, Repr

/-- A fresh empty contour (source: `Contour::new`). -/
def Contour.new : Contour := ⟨[], [], Rect.zero⟩

/-- Number of points (source: `Contour::len`). -/
def Contour.len (c : Contour) : Nat := c.points.length

/-- Append one point/flag pair and incrementally widen the bounds
(source: `Contour::push_point`). -/
def Contour.push_point (c : Contour) (p : Point2DF32) (f : PointFlags) : Contour :=
  { points := c.points ++ [p], flags := c.flags ++ [f],
    bounds := union_rect c.bounds p c.points.isEmpty }

/-- Append the points implied by one segment, seeding the baseline start
only when the contour is still empty (source: `Contour::push_segment`). -/
def Contour.push_segment (c : Contour) (s : Segment) : Contour :=
  if s.kind = SegmentKind.none then c
  else
    let c1 := if c.points.isEmpty then c.push_point s.baseline.fromPt PointFlags.empty else c
    let c2 :=
      if s.kind = SegmentKind.line then c1
      else if s.kind = SegmentKind.quadratic then
        c1.push_point s.ctrl.fromPt PointFlags.CONTROL_POINT_0
      else
        (c1.push_point s.ctrl.fromPt PointFlags.CONTROL_POINT_0).push_point
          s.ctrl.toPt PointFlags.CONTROL_POINT_1
    c2.push_point s.baseline.toPt PointFlags.empty

/-- Wrapping index addition (source: `Contour::add_to_point_index`): a
single conditional subtraction of the length. -/
def Contour.add_to_point_index (c : Contour) (point_index addend : Nat) : Nat :=
  let index := point_index + addend
  let limit := c.len
  if limit ≤ index then index - limit else index

/-- Predecessor in the circular index space (source:
`Contour::prev_point_index_of`). -/
def Contour.prev_point_index_of (c : Contour) (point_index : Nat) : Nat :=
  if point_index = 0 then c.len - 1 else point_index - 1

/-- Successor in the circular index space (source:
`Contour::next_point_index_of`). -/
def Contour.next_point_index_of (c : Contour) (point_index : Nat) : Nat :=
  if point_index = c.len - 1 then 0 else point_index + 1

/-- Reconstruct the segment whose baseline starts at the given endpoint
(source: `Contour::segment_after`).  The result is `none` exactly when the
source would hit the `debug_assert!(point_is_endpoint)` precondition
failure or an out-of-range array access (both fatal). -/
def Contour.segment_after (c : Contour) (point_index : Nat) : Option Segment :=
  match c.flags[point_index]? with
  | Option.none => Option.none
  | some f0 =>
    if f0.cp0 || f0.cp1 then Option.none
    else
      match c.points[point_index]? with
      | Option.none => Option.none
      | some p0 =>
        let i1 := c.add_to_point_index point_index 1
        match c.flags[i1]?, c.points[i1]? with
        | some f1, some p1 =>
          if !(f1.cp0 || f1.cp1) then some (Segment.line ⟨p0, p1⟩)
          else
            let i2 := c.add_to_point_index point_index 2
            match c.flags[i2]?, c.points[i2]? with
            | some f2, some p2 =>
              if !(f2.cp0 || f2.cp1) then some (Segment.quadratic ⟨p0, p2⟩ p1)
              else
                let i3 := c.add_to_point_index point_index 3
                match c.points[i3]? with
                | some p3 => some (Segment.cubic ⟨p0, p3⟩ ⟨p1, p2⟩)
                | Option.none => Option.none
            | _, _ => Option.none
        | _, _ => Option.none

/-- Map every point through a point-mapping function and recompute the
bounds from scratch in the same pass: the first point resets the box, the
rest widen it (source: `Contour::transform`, with the affine transform
abstracted as an arbitrary point mapping). -/
def Contour.transform (t : Point2DF32 → Point2DF32) (c : Contour) : Contour :=
  let newPoints := c.points.map t
  { points := newPoints, flags := c.flags,
    bounds :=
      match newPoints with
      | [] => c.bounds
      | p :: ps => ps.foldl (fun b q => union_rect b q false) (union_rect c.bounds p true) }

/-- Map every point through a perspective point mapping, recomputing the
bounds from scratch (source: `Contour::apply_perspective`; the perspective
divide is an external collaborator, abstracted as a point mapping). -/
def Contour.apply_perspective (t : Point2DF32 → Point2DF32) (c : Contour) : Contour :=
  let newPoints := c.points.map t
  { points := newPoints, flags := c.flags,
    bounds :=
      match newPoints with
      | [] => c.bounds
      | p :: ps => ps.foldl (fun b q => union_rect b q false) (union_rect c.bounds p true) }

/-- Union a contour's cached bounds into a running optional aggregate
(source: `Contour::update_bounds`). -/
def Contour.update_bounds (c : Contour) (bounds : Option Rect) : Option Rect :=
  some (match bounds with
        | Option.none => c.bounds
        | some b => b.union c.bounds)

/-- The iterator state over a contour (source: `struct ContourIter`). -/
structure ContourIter where
  contour : Contour
  index : Nat
deriving DecidableEq, Repr

/-- Create an iterator starting at internal index 1 (source:
`Contour::iter`). -/
def Contour.iter (c : Contour) : ContourIter := { contour := c, index := 1 }

/-- One step of the contour iterator (source: `ContourIter::next`).  The
outer `Option` is `none` exactly when the source would panic (an
out-of-range point/flag access, or the `debug_assert!` that the fourth
point of a cubic run is an endpoint); `some Option.none` is normal
exhaustion; `some (some (s, it))` yields segment `s` and the advanced
iterator. -/
def ContourIter.next (it : ContourIter) : Option (Option (Segment × ContourIter)) :=
  let c := it.contour
  if it.index = c.len + 1 then some Option.none
  else
    match c.points[it.index - 1]? with
    | Option.none => Option.none
    | some point0 =>
      if it.index = c.len then
        match c.points[0]? with
        | Option.none => Option.none
        | some point1 =>
          some (some (Segment.line ⟨point0, point1⟩, ⟨c, it.index + 1⟩))
      else
        match c.points[it.index]?, c.flags[it.index]? with
        | some point1, some f1 =>
          if !(f1.cp0 || f1.cp1) then
            some (some (Segment.line ⟨point0, point1⟩, ⟨c, it.index + 1⟩))
          else
            match c.points[it.index + 1]?, c.flags[it.index + 1]? with
            | some point2, some f2 =>
              if !(f2.cp0 || f2.cp1) then
                some (some (Segment.quadratic ⟨point0, point2⟩ point1, ⟨c, it.index + 2⟩))
              else
                match c.points[it.index + 2]?, c.flags[it.index + 2]? with
                | some point3, some f3 =>
                  if !(f3.cp0 || f3.cp1) then
                    some (some (Segment.cubic ⟨point0, point3⟩ ⟨point1, point2⟩,
                                ⟨c, it.index + 3⟩))
                  else Option.none
                | _, _ => Option.none
            | _, _ => Option.none
        | _, _ => Option.none

/-- Drive the iterator to exhaustion, collecting the yielded segments.
The fuel bounds the number of yields; `none` reports a panic (or fuel
exhaustion, which never happens from a fresh iterator with fuel
`len + 1`). -/
def runIter : Nat → ContourIter → Option (List Segment)
  | fuel, it =>
    match it.next with
    | Option.none => Option.none
    | some Option.none => some []
    | some (some (s, it2)) =>
      match fuel with
      | 0 => Option.none
      | fuel + 1 => (runIter fuel it2).map (fun l => s :: l)

/-- All segments produced by iterating a contour from a fresh iterator
(the finite sequence the `for` loops of the source consume). -/
def contourSegments (c : Contour) : Option (List Segment) :=
  runIter (c.len + 1) c.iter

/-- Rebuild a contour by replaying a list of segments into a fresh empty
contour via `push_segment` (the replay half of the round-trip law; also
the body of `Contour::make_monotonic` after `take()`). -/
def replayContour (segs : List Segment) : Contour :=
  segs.foldl Contour.push_segment Contour.new

/-- Replace a contour by replaying its segment stream through the
monotonic-decomposition collaborator (source: `Contour::make_monotonic`;
`MonotonicConversionIter` is crate code not included under src, modelled
from the spec as an arbitrary function from a segment sequence to a
segment sequence). -/
def Contour.make_monotonic (conv : List Segment → List Segment) (c : Contour) : Contour :=
  replayContour (conv ((contourSegments c).getD []))

/-- An outline: an ordered list of contours plus aggregate bounds
(source: `struct Outline`). -/
structure Outline where
  contours : List Contour
  bounds : Rect
deriving DecidableEq, Repr

/-- A fresh empty outline (source: `Outline::new`). -/
def Outline.new : Outline := ⟨[], Rect.zero⟩

/-- Process one segment of the input stream of `Outline::from_segments`:
the state is (finished contours, contour in progress, running optional
bounds aggregate).  A first-in-subpath flag flushes a non-empty contour in
progress (without touching the aggregate) and seeds a new one with the
baseline start; a closes-subpath flag flushes the contour in progress,
unioning its bounds into the aggregate, and skips the segment's geometry;
otherwise the segment's control and end points are appended. -/
def from_segments_apply (s : Segment) (st : List Contour × Contour × Option Rect) :
    List Contour × Contour × Option Rect :=
  let cs := st.1
  let cur := st.2.1
  let acc := st.2.2
  let cs2 := if s.flags.first_in_subpath && !cur.points.isEmpty then cs ++ [cur] else cs
  let cur2 :=
    if s.flags.first_in_subpath then
      (if cur.points.isEmpty then cur else Contour.new).push_point
        s.baseline.fromPt PointFlags.empty
    else cur
  if s.flags.closes_subpath then
    if cur2.points.isEmpty then (cs2, cur2, acc)
    else (cs2 ++ [cur2], Contour.new, cur2.update_bounds acc)
  else if s.kind = SegmentKind.none then (cs2, cur2, acc)
  else if s.kind = SegmentKind.line then
    (cs2, cur2.push_point s.baseline.toPt PointFlags.empty, acc)
  else if s.kind = SegmentKind.quadratic then
    (cs2, (cur2.push_point s.ctrl.fromPt PointFlags.CONTROL_POINT_0).push_point
            s.baseline.toPt PointFlags.empty, acc)
  else
    (cs2, (((cur2.push_point s.ctrl.fromPt PointFlags.CONTROL_POINT_0).push_point
              s.ctrl.toPt PointFlags.CONTROL_POINT_1)).push_point
            s.baseline.toPt PointFlags.empty, acc)

/-- The stream-consuming loop of `Outline::from_segments`, ending with the
final flush of any remaining non-empty contour and installing the
aggregate bounds (or the zero box when no contour contributed). -/
def from_segments_loop : List Segment → List Contour × Contour × Option Rect → Outline
  | [], st =>
    if st.2.1.points.isEmpty then { contours := st.1, bounds := st.2.2.getD Rect.zero }
    else
      { contours := st.1 ++ [st.2.1],
        bounds := (st.2.1.update_bounds st.2.2).getD Rect.zero }
  | s :: rest, st => from_segments_loop rest (from_segments_apply s st)

/-- Build an outline from a segment stream (source:
`Outline::from_segments`). -/
def Outline.from_segments (segments : List Segment) : Outline :=
  from_segments_loop segments ([], Contour.new, Option.none)

/-- Transform every contour and re-aggregate the outline bounds from the
freshly recomputed per-contour bounds (source: `Outline::transform`). -/
def Outline.transform (t : Point2DF32 → Point2DF32) (o : Outline) : Outline :=
  let r := o.contours.foldl
    (fun (acc : List Contour × Option Rect) c =>
      (acc.1 ++ [c.transform t], (c.transform t).update_bounds acc.2))
    ([], Option.none)
  { contours := r.1, bounds := r.2.getD Rect.zero }

/-- Apply a perspective mapping to every contour and re-aggregate the
outline bounds (source: `Outline::apply_perspective`). -/
def Outline.apply_perspective (t : Point2DF32 → Point2DF32) (o : Outline) : Outline :=
  let r := o.contours.foldl
    (fun (acc : List Contour × Option Rect) c =>
      (acc.1 ++ [c.apply_perspective t], (c.apply_perspective t).update_bounds acc.2))
    ([], Option.none)
  { contours := r.1, bounds := r.2.getD Rect.zero }

/-- Clip every contour against a convex polygon, dropping contours that
come back empty and re-aggregating bounds from the survivors (source:
`Outline::clip_against_polygon`; `ContourPolygonClipper` is crate code not
included under src, modelled from the spec as a function from a contour to
a new self-consistent contour). -/
def Outline.clip_against_polygon (clip : Contour → Contour) (o : Outline) : Outline :=
  let r := o.contours.foldl
    (fun (acc : List Contour × Option Rect) c =>
      if (clip c).points.isEmpty then acc
      else (acc.1 ++ [clip c], (clip c).update_bounds acc.2))
    ([], Option.none)
  { contours := r.1, bounds := r.2.getD Rect.zero }

/-- Clip every contour against an axis-aligned rectangle, dropping empty
results and re-aggregating bounds (source: `Outline::clip_against_rect`;
`ContourRectClipper` is crate code not included under src, modelled from
the spec as a function from a contour to a new self-consistent contour). -/
def Outline.clip_against_rect (clip : Contour → Contour) (o : Outline) : Outline :=
  let r := o.contours.foldl
    (fun (acc : List Contour × Option Rect) c =>
      if (clip c).points.isEmpty then acc
      else (acc.1 ++ [clip c], (clip c).update_bounds acc.2))
    ([], Option.none)
  { contours := r.1, bounds := r.2.getD Rect.zero }

/-- Replace every contour by its monotonic conversion; the outline-level
aggregate bounds are left untouched (source: `Outline::make_monotonic`). -/
def Outline.make_monotonic (conv : List Segment → List Segment) (o : Outline) : Outline :=
  { contours := o.contours.map (Contour.make_monotonic conv), bounds := o.bounds }

/-- The textual form of one segment in the contour debug rendering
(source: the `match segment.kind` arms of `impl Debug for Contour`). -/
def segment_debug (s : Segment) : String :=
  match s.kind with
  | SegmentKind.none => ""
  | SegmentKind.line =>
    " L " ++ toString s.baseline.toPt.x ++ " " ++ toString s.baseline.toPt.y
  | SegmentKind.quadratic =>
    " Q " ++ toString s.ctrl.fromPt.x ++ " " ++ toString s.ctrl.fromPt.y ++
    " " ++ toString s.baseline.toPt.x ++ " " ++ toString s.baseline.toPt.y
  | SegmentKind.cubic =>
    " C " ++ toString s.ctrl.fromPt.x ++ " " ++ toString s.ctrl.fromPt.y ++
    " " ++ toString s.ctrl.toPt.x ++ " " ++ toString s.ctrl.toPt.y ++
    " " ++ toString s.baseline.toPt.x ++ " " ++ toString s.baseline.toPt.y

/-- The debug rendering of a contour (source: `impl Debug for Contour`):
`M x y` at the first segment's baseline start, one kind-specific chunk per
iterated segment (including the implicit closing segment), then ` z`.
`none` when iteration would panic. -/
def contour_debug (c : Contour) : Option String :=
  (contourSegments c).map (fun segs =>
    (match segs with
     | [] => ""
     | s :: _ =>
       "M " ++ toString s.baseline.fromPt.x ++ " " ++ toString s.baseline.fromPt.y) ++
    String.join (segs.map segment_debug) ++ " z")

/-- The debug rendering of an outline (source: `impl Debug for Outline`):
the contours' renderings separated by single spaces. -/
def outline_debug (o : Outline) : Option String :=
  (o.contours.mapM contour_debug).map (fun strs => String.intercalate " " strs)

/-- The packed contour/point identifier (source: `struct PointIndex`). -/
structure PointIndex where
  value : Nat
deriving DecidableEq, Repr

/-- Pack a contour ordinal and a point ordinal (source: `PointIndex::new`).
`none` exactly when one of the two `debug_assert!` range checks fails
(contour over 0xfff or point over 0xfffff), which is fatal in the
source. -/
def PointIndex.new (contour point : Nat) : Option PointIndex :=
  if 0xfff < contour then Option.none
  else if 0xfffff < point then Option.none
  else some ⟨(contour <<< 20) ||| point⟩

/-- Extract the contour ordinal (source: `PointIndex::contour`). -/
def PointIndex.contour (p : PointIndex) : Nat := p.value >>> 20

/-- Extract the point ordinal (source: `PointIndex::point`). -/
def PointIndex.point (p : PointIndex) : Nat := p.value &&& 0xfffff

/-- The exact axis-aligned bounding box of a point list: the zero box for
an empty list, otherwise the min/max over all x and y coordinates. -/
def exactRect : List Point2DF32 → Rect
  | [] => Rect.zero
  | p :: t =>
    let mnx := t.foldl (fun m q => min m q.x) p.x
    let mny := t.foldl (fun m q => min m q.y) p.y
    let mxx := t.foldl (fun m q => max m q.x) p.x
    let mxy := t.foldl (fun m q => max m q.y) p.y
    ⟨mnx, mny, mxx - mnx, mxy - mny⟩

/-- The bounds invariant for a contour: the cached box is the exact
min/max box of the stored points. -/
@[reducible]
def boundsExact (c : Contour) : Prop := c.bounds = exactRect c.points

/-- All points stored in an outline, in contour order. -/
def allPoints (o : Outline) : List Point2DF32 :=
  (o.contours.map Contour.points).flatten

/-- The running aggregate produced by folding `update_bounds` over a list
of contours, as the outline-level operations of the source do. -/
def boundsAccOf (cs : List Contour) : Option Rect :=
  cs.foldl (fun a c => c.update_bounds a) Option.none

/-- The structural validity of a contour's flag array, as laid down by the
spec's data model: a concatenation of segment blocks, each an endpoint,
a quadratic control point followed by an endpoint, or a cubic's two
control points followed by an endpoint. -/
inductive BlocksOk : List PointFlags → Prop where
  | nil : BlocksOk []
  | line : ∀ {t : List PointFlags}, BlocksOk t → BlocksOk (PointFlags.empty :: t)
  | quad : ∀ {t : List PointFlags}, BlocksOk t →
      BlocksOk (PointFlags.CONTROL_POINT_0 :: PointFlags.empty :: t)
  | cubic : ∀ {t : List PointFlags}, BlocksOk t →
      BlocksOk (PointFlags.CONTROL_POINT_0 :: PointFlags.CONTROL_POINT_1 ::
                PointFlags.empty :: t)

/-- A well-formed contour per the spec's data model: flags and points in
1:1 correspondence, the first point (if any) an endpoint, and the flag
array a valid concatenation of segment blocks. -/
def Contour.WellFormed (c : Contour) : Prop :=
  c.flags.length = c.points.length ∧
  c.flags.headD PointFlags.empty = PointFlags.empty ∧
  BlocksOk c.flags

/-- The segments the iterator is expected to produce from position
`p0` with remaining points `ps` and flags `fs`, ending with the implicit
closing line back to `pfirst`. -/
def expectedSegs (p0 pfirst : Point2DF32) (ps : List Point2DF32)
    (fs : List PointFlags) : List Segment :=
  match fs, ps with
  | [], _ => [Segment.line ⟨p0, pfirst⟩]
  | _ :: _, [] => []
  | ⟨false, false⟩ :: fs1, p1 :: ps1 =>
    Segment.line ⟨p0, p1⟩ :: expectedSegs p1 pfirst ps1 fs1
  | _ :: ⟨false, false⟩ :: fs2, p1 :: p2 :: ps2 =>
    Segment.quadratic ⟨p0, p2⟩ p1 :: expectedSegs p2 pfirst ps2 fs2
  | _ :: _ :: ⟨false, false⟩ :: fs3, p1 :: p2 :: p3 :: ps3 =>
    Segment.cubic ⟨p0, p3⟩ ⟨p1, p2⟩ :: expectedSegs p3 pfirst ps3 fs3
  | _, _ => []
termination_by structural fs

/-- Emptiness of the contour in progress after `from_segments` processes
one segment, given its emptiness before. -/
def nextEmptyFlag (isEmpty : Bool) (s : Segment) : Bool :=
  if s.flags.closes_subpath then true
  else if s.flags.first_in_subpath then false
  else if s.kind = SegmentKind.none then isEmpty
  else false

/-- True when no segment of the stream ever arrives flagged
first-in-subpath while the contour in progress is non-empty, i.e. the
bounds-skipping flush of `from_segments` never fires. -/
def noFirstFlush : Bool → List Segment → Bool
  | _, [] => true
  | isEmpty, s :: rest =>
    (!(s.flags.first_in_subpath && !isEmpty)) && noFirstFlush (nextEmptyFlag isEmpty s) rest

/-- A line segment of the input stream with the given subpath flags. -/
def mkLine (p q : Point2DF32) (fl : SegmentFlags) : Segment :=
  { baseline := ⟨p, q⟩, ctrl := ⟨⟨0, 0⟩, ⟨0, 0⟩⟩, kind := SegmentKind.line, flags := fl }

/-- The stream of three line segments tracing a closed triangle: the first
flagged first-in-subpath, the last flagged closes-subpath. -/
def triangleStream (p0 p1 p2 : Point2DF32) : List Segment :=
  [ mkLine p0 p1 ⟨true, false⟩, mkLine p1 p2 ⟨false, false⟩, mkLine p2 p0 ⟨false, true⟩ ]

/-- The single cubic segment of concrete scenario 2: baseline (0,0) to
(10,10), control points (0,10) and (10,0), flagged both first-in-subpath
and closes-subpath. -/
def cubicScenarioSeg : Segment :=
  { baseline := ⟨⟨0, 0⟩, ⟨10, 10⟩⟩, ctrl := ⟨⟨0, 10⟩, ⟨10, 0⟩⟩,
    kind := SegmentKind.cubic, flags := ⟨true, true⟩ }

/-- A stream of two open subpaths, each started by a first-in-subpath line
and neither explicitly closed: the second first-in-subpath segment flushes
the first contour without unioning its bounds. -/
def openPairStreamA : List Segment :=
  [ mkLine ⟨0, 0⟩ ⟨10, 10⟩ ⟨true, false⟩, mkLine ⟨20, 20⟩ ⟨30, 30⟩ ⟨true, false⟩ ]

/-- A second stream of two unclosed subpaths, used to exhibit an outline
whose cached bounds miss some of its points. -/
def openPairStreamB : List Segment :=
  [ mkLine ⟨0, 0⟩ ⟨4, 4⟩ ⟨true, false⟩, mkLine ⟨20, 20⟩ ⟨30, 30⟩ ⟨true, false⟩ ]

/-- A valid one-point contour (a single endpoint) with exact bounds. -/
def onePointContour : Contour := ⟨[⟨0, 0⟩], [PointFlags.empty], ⟨0, 0, 0, 0⟩⟩

/-- A valid one-point contour at (7,7), with exact bounds. -/
def onePointContour7 : Contour := ⟨[⟨7, 7⟩], [PointFlags.empty], ⟨7, 7, 0, 0⟩⟩

/-- A valid three-endpoint triangle contour with exact bounds. -/
def triContour : Contour :=
  ⟨[⟨0, 0⟩, ⟨10, 0⟩, ⟨5, 10⟩],
   [PointFlags.empty, PointFlags.empty, PointFlags.empty], ⟨0, 0, 10, 10⟩⟩

/-- A valid contour encoding one quadratic segment: endpoint, control
point, endpoint, with exact bounds. -/
def quadContour : Contour :=
  ⟨[⟨0, 0⟩, ⟨4, 8⟩, ⟨8, 0⟩],
   [PointFlags.empty, PointFlags.CONTROL_POINT_0, PointFlags.empty], ⟨0, 0, 8, 8⟩⟩

/-- The bounds invariant for an outline: the cached box is the exact
min/max box of all points of all its contours. -/
@[reducible]
def outlineExact (o : Outline) : Prop := o.bounds = exactRect (allPoints o)

/-- The debug rendering the code actually produces for the closed
triangle of concrete scenario 1: the implicit closing segment back to the
start point is rendered as an explicit final line command. -/
def triangleDebug (p0 p1 p2 : Point2DF32) : String :=
  "M " ++ toString p0.x ++ " " ++ toString p0.y ++
  " L " ++ toString p1.x ++ " " ++ toString p1.y ++
  " L " ++ toString p2.x ++ " " ++ toString p2.y ++
  " L " ++ toString p0.x ++ " " ++ toString p0.y ++ " z"

/-! Basic simp lemmas about the embedded structures. -/

@[simp]
lemma Contour.push_point_points (c : Contour) (p : Point2DF32) (f : PointFlags) :
    (c.push_point p f).points = c.points ++ [p] := rfl

@[simp]
lemma Contour.push_point_flags (c : Contour) (p : Point2DF32) (f : PointFlags) :
    (c.push_point p f).flags = c.flags ++ [f] := rfl

lemma Contour.push_point_bounds (c : Contour) (p : Point2DF32) (f : PointFlags) :
    (c.push_point p f).bounds = union_rect c.bounds p c.points.isEmpty := rfl

@[simp]
lemma isEmpty_append_cons {α : Type} (l : List α) (x : α) (xs : List α) :
    (l ++ x :: xs).isEmpty = false := by
  cases l <;> rfl

/-! The min/max fold algebra behind `union_rect` and `exactRect`. -/

lemma foldl_min_init (f : Point2DF32 → Int) (u : List Point2DF32) (m n : Int) :
    u.foldl (fun a q => min a (f q)) (min m n) =
      min m (u.foldl (fun a q => min a (f q)) n) := by
  induction u generalizing n with
  | nil => rfl
  | cons q u ih =>
    simp only [List.foldl_cons]
    rw [min_assoc]
    exact ih (min n (f q))

lemma foldl_max_init (f : Point2DF32 → Int) (u : List Point2DF32) (m n : Int) :
    u.foldl (fun a q => max a (f q)) (max m n) =
      max m (u.foldl (fun a q => max a (f q)) n) := by
  induction u generalizing n with
  | nil => rfl
  | cons q u ih =>
    simp only [List.foldl_cons]
    rw [max_assoc]
    exact ih (max n (f q))

lemma exact_push (l : List Point2DF32) (p : Point2DF32) :
    exactRect (l ++ [p]) = union_rect (exactRect l) p l.isEmpty := by
  cases l with
  | nil => simp [exactRect, union_rect]
  | cons a t =>
    simp only [List.cons_append, exactRect, union_rect, List.foldl_append,
      List.foldl_cons, List.foldl_nil, Rect.maxX, Rect.maxY, List.isEmpty_cons,
      Bool.false_eq_true, if_false, Rect.mk.injEq]
    refine ⟨trivial, trivial, ?_, ?_⟩ <;> omega

lemma exact_union (A B : List Point2DF32) (hA : A ≠ []) (hB : B ≠ []) :
    (exactRect A).union (exactRect B) = exactRect (A ++ B) := by
  match A, hA, B, hB with
  | a :: t, _, b :: u, _ =>
    simp only [exactRect, Rect.union, List.cons_append, List.foldl_append,
      List.foldl_cons, Rect.maxX, Rect.maxY]
    rw [foldl_min_init Point2DF32.x, foldl_min_init Point2DF32.y,
        foldl_max_init Point2DF32.x, foldl_max_init Point2DF32.y]
    simp only [Rect.mk.injEq]
    refine ⟨trivial, trivial, ?_, ?_⟩ <;> omega

lemma scratch_fold (ps : List Point2DF32) (p : Point2DF32) (b0 : Rect) :
    ps.foldl (fun b q => union_rect b q false) (union_rect b0 p true) =
      exactRect (p :: ps) := by
  induction ps using List.reverseRecOn with
  | nil => simp [exactRect, union_rect]
  | append_singleton ps q ih =>
    have h := exact_push (p :: ps) q
    simp only [List.isEmpty_cons] at h
    rw [List.foldl_append, List.foldl_cons, List.foldl_nil, ih, ← List.cons_append, h]

/-! Preservation of the contour bounds invariant. -/

lemma boundsExact_new : boundsExact Contour.new := rfl

lemma boundsExact_push_point (c : Contour) (p : Point2DF32) (f : PointFlags)
    (h : boundsExact c) : boundsExact (c.push_point p f) := by
  unfold boundsExact at *
  rw [Contour.push_point_points, Contour.push_point_bounds, h, exact_push]

lemma push_segment_none (c : Contour) (s : Segment) (hk : s.kind = SegmentKind.none) :
    c.push_segment s = c := by
  simp [Contour.push_segment, hk]

lemma push_segment_line (c : Contour) (s : Segment) (hk : s.kind = SegmentKind.line) :
    c.push_segment s =
      (if c.points.isEmpty then c.push_point s.baseline.fromPt PointFlags.empty
       else c).push_point s.baseline.toPt PointFlags.empty := by
  simp [Contour.push_segment, hk]

lemma push_segment_quadratic (c : Contour) (s : Segment)
    (hk : s.kind = SegmentKind.quadratic) :
    c.push_segment s =
      (((if c.points.isEmpty then c.push_point s.baseline.fromPt PointFlags.empty
         else c).push_point s.ctrl.fromPt PointFlags.CONTROL_POINT_0)).push_point
        s.baseline.toPt PointFlags.empty := by
  simp [Contour.push_segment, hk]

lemma push_segment_cubic (c : Contour) (s : Segment) (hk : s.kind = SegmentKind.cubic) :
    c.push_segment s =
      ((((if c.points.isEmpty then c.push_point s.baseline.fromPt PointFlags.empty
          else c).push_point s.ctrl.fromPt
            PointFlags.CONTROL_POINT_0).push_point s.ctrl.toPt
            PointFlags.CONTROL_POINT_1)).push_point s.baseline.toPt PointFlags.empty := by
  simp [Contour.push_segment, hk]

lemma boundsExact_push_segment (c : Contour) (s : Segment) (h : boundsExact c) :
    boundsExact (c.push_segment s) := by
  have hseed : boundsExact
      (if c.points.isEmpty then c.push_point s.baseline.fromPt PointFlags.empty else c) := by
    split
    · exact boundsExact_push_point _ _ _ h
    · exact h
  cases hk : s.kind with
  | none => rw [push_segment_none c s hk]; exact h
  | line =>
    rw [push_segment_line c s hk]
    exact boundsExact_push_point _ _ _ hseed
  | quadratic =>
    rw [push_segment_quadratic c s hk]
    exact boundsExact_push_point _ _ _ (boundsExact_push_point _ _ _ hseed)
  | cubic =>
    rw [push_segment_cubic c s hk]
    exact boundsExact_push_point _ _ _
      (boundsExact_push_point _ _ _ (boundsExact_push_point _ _ _ hseed))

lemma boundsExact_foldl_push (segs : List Segment) (c : Contour) (h : boundsExact c) :
    boundsExact (segs.foldl Contour.push_segment c) := by
  induction segs generalizing c with
  | nil => exact h
  | cons s segs ih =>
    exact ih _ (boundsExact_push_segment c s h)

lemma boundsExact_replay (segs : List Segment) : boundsExact (replayContour segs) :=
  boundsExact_foldl_push segs Contour.new boundsExact_new

lemma boundsExact_make_monotonic (conv : List Segment → List Segment) (c : Contour) :
    boundsExact (c.make_monotonic conv) :=
  boundsExact_replay _

lemma transform_points (t : Point2DF32 → Point2DF32) (c : Contour) :
    (c.transform t).points = c.points.map t := rfl

lemma boundsExact_transform (t : Point2DF32 → Point2DF32) (c : Contour)
    (h : boundsExact c) : boundsExact (c.transform t) := by
  unfold boundsExact Contour.transform at *
  cases hm : c.points.map t with
  | nil =>
    have hcp : c.points = [] := List.map_eq_nil_iff.mp hm
    simp only [hm, hcp] at h ⊢
    exact h
  | cons p ps =>
    simp only [hm]
    exact scratch_fold ps p c.bounds

lemma apply_perspective_eq_transform (t : Point2DF32 → Point2DF32) (c : Contour) :
    c.apply_perspective t = c.transform t := rfl

lemma boundsExact_apply_perspective (t : Point2DF32 → Point2DF32) (c : Contour)
    (h : boundsExact c) : boundsExact (c.apply_perspective t) := by
  rw [apply_perspective_eq_transform]
  exact boundsExact_transform t c h

/-! Aggregation of outline bounds from per-contour bounds. -/

lemma update_bounds_none (c : Contour) :
    c.update_bounds Option.none = some c.bounds := rfl

lemma update_bounds_some (c : Contour) (b : Rect) :
    c.update_bounds (some b) = some (b.union c.bounds) := rfl

lemma boundsAccOf_append (M : List Contour) (c : Contour) :
    boundsAccOf (M ++ [c]) = c.update_bounds (boundsAccOf M) := by
  simp [boundsAccOf, List.foldl_append]

lemma foldl_update_some (M : List Contour) (b : Rect) :
    M.foldl (fun a c => c.update_bounds a) (some b) =
      some (M.foldl (fun r c => r.union c.bounds) b) := by
  induction M generalizing b with
  | nil => rfl
  | cons c M ih =>
    simp only [List.foldl_cons, update_bounds_some]
    exact ih (b.union c.bounds)

lemma foldl_union_exact (M : List Contour) (P : List Point2DF32) (hP : P ≠ [])
    (h1 : ∀ c ∈ M, boundsExact c) (h2 : ∀ c ∈ M, c.points ≠ []) :
    M.foldl (fun r c => r.union c.bounds) (exactRect P) =
      exactRect (P ++ (M.map Contour.points).flatten) := by
  induction M generalizing P with
  | nil => simp
  | cons c M ih =>
    simp only [List.foldl_cons]
    rw [h1 c (by simp), exact_union P c.points hP (h2 c (by simp))]
    rw [ih (P ++ c.points) (by simp [hP]) (fun d hd => h1 d (by simp [hd]))
        (fun d hd => h2 d (by simp [hd]))]
    simp [List.append_assoc]

lemma boundsAccOf_getD_exact (M : List Contour) (h1 : ∀ c ∈ M, boundsExact c)
    (h2 : ∀ c ∈ M, c.points ≠ []) :
    (boundsAccOf M).getD Rect.zero = exactRect ((M.map Contour.points).flatten) := by
  cases M with
  | nil => rfl
  | cons c M =>
    unfold boundsAccOf
    simp only [List.foldl_cons, update_bounds_none, foldl_update_some]
    rw [h1 c (by simp),
        foldl_union_exact M c.points (h2 c (by simp)) (fun d hd => h1 d (by simp [hd]))
          (fun d hd => h2 d (by simp [hd]))]
    simp

lemma foldl_tracc (g : Contour → Contour) (L : List Contour) (A : List Contour)
    (B : Option Rect) :
    L.foldl (fun (acc : List Contour × Option Rect) c =>
        (acc.1 ++ [g c], (g c).update_bounds acc.2)) (A, B) =
      (A ++ L.map g, (L.map g).foldl (fun a c => c.update_bounds a) B) := by
  induction L generalizing A B with
  | nil => simp
  | cons c L ih =>
    simp only [List.foldl_cons, List.map_cons]
    rw [ih]
    simp

lemma foldl_clipacc (g : Contour → Contour) (L : List Contour) (A : List Contour)
    (B : Option Rect) :
    L.foldl (fun (acc : List Contour × Option Rect) c =>
        if (g c).points.isEmpty then acc
        else (acc.1 ++ [g c], (g c).update_bounds acc.2)) (A, B) =
      (A ++ (L.map g).filter (fun c => !c.points.isEmpty),
       ((L.map g).filter (fun c => !c.points.isEmpty)).foldl
         (fun a c => c.update_bounds a) B) := by
  induction L generalizing A B with
  | nil => simp
  | cons c L ih =>
    simp only [List.foldl_cons, List.map_cons, List.filter_cons]
    by_cases he : (g c).points.isEmpty = true
    · simp only [he, if_true, Bool.not_true, Bool.false_eq_true, if_false]
      exact ih A B
    · have he' : (g c).points.isEmpty = false := by simpa using he
      simp only [he', Bool.not_false, if_true, Bool.false_eq_true, if_false]
      rw [ih]
      simp

lemma boundsExact_transform_ne (t : Point2DF32 → Point2DF32) (c : Contour)
    (h : c.points ≠ []) : boundsExact (c.transform t) := by
  unfold boundsExact Contour.transform
  cases hm : c.points.map t with
  | nil => exact absurd (List.map_eq_nil_iff.mp hm) h
  | cons p ps =>
    simp only [hm]
    exact scratch_fold ps p c.bounds

lemma outlineExact_transform (t : Point2DF32 → Point2DF32) (o : Outline)
    (h : ∀ c ∈ o.contours, c.points ≠ []) : outlineExact (o.transform t) := by
  unfold outlineExact Outline.transform allPoints
  rw [foldl_tracc (Contour.transform t) o.contours [] Option.none]
  simp only [List.nil_append]
  exact boundsAccOf_getD_exact (o.contours.map (Contour.transform t))
    (by
      intro c2 hc2
      obtain ⟨c, hc, rfl⟩ := List.mem_map.mp hc2
      exact boundsExact_transform_ne t c (h c hc))
    (by
      intro c2 hc2
      obtain ⟨c, hc, rfl⟩ := List.mem_map.mp hc2
      rw [transform_points]
      simpa using h c hc)

lemma outlineExact_apply_perspective (t : Point2DF32 → Point2DF32) (o : Outline)
    (h : ∀ c ∈ o.contours, c.points ≠ []) : outlineExact (o.apply_perspective t) := by
  unfold outlineExact Outline.apply_perspective allPoints
  rw [foldl_tracc (Contour.apply_perspective t) o.contours [] Option.none]
  simp only [List.nil_append]
  exact boundsAccOf_getD_exact (o.contours.map (Contour.apply_perspective t))
    (by
      intro c2 hc2
      obtain ⟨c, hc, rfl⟩ := List.mem_map.mp hc2
      rw [apply_perspective_eq_transform]
      exact boundsExact_transform_ne t c (h c hc))
    (by
      intro c2 hc2
      obtain ⟨c, hc, rfl⟩ := List.mem_map.mp hc2
      rw [apply_perspective_eq_transform, transform_points]
      simpa using h c hc)

lemma outlineExact_clip_polygon (clip : Contour → Contour) (o : Outline)
    (hc : ∀ c, boundsExact (clip c)) : outlineExact (o.clip_against_polygon clip) := by
  unfold outlineExact Outline.clip_against_polygon allPoints
  rw [foldl_clipacc clip o.contours [] Option.none]
  simp only [List.nil_append]
  exact boundsAccOf_getD_exact _
    (by
      intro c2 hc2
      obtain ⟨c, _, rfl⟩ := List.mem_map.mp (List.mem_of_mem_filter hc2)
      exact hc c)
    (by
      intro c2 hc2
      have := (List.mem_filter.mp hc2).2
      simp only [Bool.not_eq_true'] at this
      exact (List.isEmpty_eq_false (l := c2.points)).mp this)

lemma outlineExact_clip_rect (clip : Contour → Contour) (o : Outline)
    (hc : ∀ c, boundsExact (clip c)) : outlineExact (o.clip_against_rect clip) := by
  unfold outlineExact Outline.clip_against_rect allPoints
  rw [foldl_clipacc clip o.contours [] Option.none]
  simp only [List.nil_append]
  exact boundsAccOf_getD_exact _
    (by
      intro c2 hc2
      obtain ⟨c, _, rfl⟩ := List.mem_map.mp (List.mem_of_mem_filter hc2)
      exact hc c)
    (by
      intro c2 hc2
      have := (List.mem_filter.mp hc2).2
      simp only [Bool.not_eq_true'] at this
      exact (List.isEmpty_eq_false (l := c2.points)).mp this)

/-! The bounds aggregate of `from_segments` when the first-in-subpath
flush of a non-empty contour never fires. -/

lemma from_segments_loop_bounds (l : List Segment) :
    ∀ (cs : List Contour) (cur : Contour) (acc : Option Rect),
      acc = boundsAccOf cs →
      noFirstFlush cur.points.isEmpty l = true →
      (from_segments_loop l (cs, cur, acc)).bounds =
        (boundsAccOf (from_segments_loop l (cs, cur, acc)).contours).getD Rect.zero := by
  induction l with
  | nil =>
    intro cs cur acc hacc _
    unfold from_segments_loop
    by_cases he : cur.points.isEmpty = true
    · simp only [he, if_true, hacc]
    · have he' : cur.points.isEmpty = false := by simpa using he
      simp only [he', Bool.false_eq_true, if_false, boundsAccOf_append, hacc]
  | cons s rest ih =>
    intro cs cur acc hacc hn
    have hn' := hn
    simp only [noFirstFlush, Bool.and_eq_true, Bool.not_eq_true'] at hn'
    have hn1 : (s.flags.first_in_subpath && !cur.points.isEmpty) = false := hn'.1
    have hn2 : noFirstFlush (nextEmptyFlag cur.points.isEmpty s) rest = true := hn'.2
    simp only [from_segments_loop]
    by_cases hf : s.flags.first_in_subpath = true
    · have hEm : cur.points.isEmpty = true := by
        rcases Bool.and_eq_false_iff.mp hn1 with h | h
        · exact absurd hf (by simp [h])
        · simpa using h
      by_cases hcl : s.flags.closes_subpath = true
      · simp only [nextEmptyFlag, hcl, if_true] at hn2
        simp [from_segments_apply, hf, hEm, hcl]
        exact ih _ _ _ (by rw [boundsAccOf_append, ← hacc]) (by simpa using hn2)
      · have hcl' : s.flags.closes_subpath = false := by simpa using hcl
        simp only [nextEmptyFlag, hcl', hf, Bool.false_eq_true, if_false, if_true] at hn2
        cases hk : s.kind with
        | none =>
          simp [from_segments_apply, hf, hEm, hcl', hk]
          exact ih _ _ _ hacc (by simpa using hn2)
        | line =>
          simp [from_segments_apply, hf, hEm, hcl', hk]
          exact ih _ _ _ hacc (by simpa using hn2)
        | quadratic =>
          simp [from_segments_apply, hf, hEm, hcl', hk]
          exact ih _ _ _ hacc (by simpa using hn2)
        | cubic =>
          simp [from_segments_apply, hf, hEm, hcl', hk]
          exact ih _ _ _ hacc (by simpa using hn2)
    · have hf' : s.flags.first_in_subpath = false := by simpa using hf
      by_cases hcl : s.flags.closes_subpath = true
      · simp only [nextEmptyFlag, hcl, if_true] at hn2
        by_cases hEm : cur.points.isEmpty = true
        · simp [from_segments_apply, hf', hEm, hcl]
          exact ih _ _ _ hacc (by simpa [hEm] using hn2)
        · have hEm' : cur.points.isEmpty = false := by simpa using hEm
          simp [from_segments_apply, hf', hEm', hcl]
          exact ih _ _ _ (by rw [boundsAccOf_append, ← hacc]) (by simpa using hn2)
      · have hcl' : s.flags.closes_subpath = false := by simpa using hcl
        simp only [nextEmptyFlag, hcl', hf', Bool.false_eq_true, if_false] at hn2
        cases hk : s.kind with
        | none =>
          simp [hk] at hn2
          simp [from_segments_apply, hf', hcl', hk]
          exact ih _ _ _ hacc hn2
        | line =>
          simp [hk] at hn2
          simp [from_segments_apply, hf', hcl', hk]
          exact ih _ _ _ hacc (by simpa using hn2)
        | quadratic =>
          simp [hk] at hn2
          simp [from_segments_apply, hf', hcl', hk]
          exact ih _ _ _ hacc (by simpa using hn2)
        | cubic =>
          simp [hk] at hn2
          simp [from_segments_apply, hf', hcl', hk]
          exact ih _ _ _ hacc (by simpa using hn2)

/-! Evaluation of single iterator steps. -/

@[simp]
lemma PointFlags.empty_cp0 : PointFlags.empty.cp0 = false := rfl

@[simp]
lemma PointFlags.empty_cp1 : PointFlags.empty.cp1 = false := rfl

@[simp]
lemma PointFlags.c0_cp0 : PointFlags.CONTROL_POINT_0.cp0 = true := rfl

@[simp]
lemma PointFlags.c0_cp1 : PointFlags.CONTROL_POINT_0.cp1 = false := rfl

@[simp]
lemma PointFlags.c1_cp0 : PointFlags.CONTROL_POINT_1.cp0 = false := rfl

@[simp]
lemma PointFlags.c1_cp1 : PointFlags.CONTROL_POINT_1.cp1 = true := rfl

@[simp]
lemma Contour.len_eq (c : Contour) : c.len = c.points.length := rfl

lemma runIter_yield (fuel : Nat) (it : ContourIter) (s : Segment) (it2 : ContourIter)
    (h : it.next = some (some (s, it2))) :
    runIter (fuel + 1) it = (runIter fuel it2).map (fun l => s :: l) := by
  rw [runIter, h]

lemma runIter_done (fuel : Nat) (it : ContourIter) (h : it.next = some Option.none) :
    runIter fuel it = some [] := by
  rw [runIter, h]

lemma next_past_end (c : Contour) (i : Nat) (hi : i = c.points.length + 1) :
    ContourIter.next ⟨c, i⟩ = some Option.none := by
  subst hi
  unfold ContourIter.next
  simp

lemma next_closing (c : Contour) (i : Nat) (p0 pf : Point2DF32)
    (hi : i = c.points.length) (h1 : 1 ≤ i)
    (hp0 : c.points[i - 1]? = some p0) (hpf : c.points[0]? = some pf) :
    ContourIter.next ⟨c, i⟩ =
      some (some (Segment.line ⟨p0, pf⟩, ⟨c, i + 1⟩)) := by
  subst hi
  unfold ContourIter.next
  simp [hp0, hpf]

lemma next_line_step (c : Contour) (i : Nat) (p0 p1 : Point2DF32)
    (hlt : i < c.points.length)
    (hp0 : c.points[i - 1]? = some p0) (hp1 : c.points[i]? = some p1)
    (hf1 : c.flags[i]? = some PointFlags.empty) :
    ContourIter.next ⟨c, i⟩ =
      some (some (Segment.line ⟨p0, p1⟩, ⟨c, i + 1⟩)) := by
  have e1 : (i = c.points.length + 1) = False := eq_false (by omega)
  have e2 : (i = c.points.length) = False := eq_false (by omega)
  unfold ContourIter.next
  simp [e1, e2, hp0, hp1, hf1]

lemma next_quad_step (c : Contour) (i : Nat) (p0 p1 p2 : Point2DF32)
    (hlt : i < c.points.length)
    (hp0 : c.points[i - 1]? = some p0) (hp1 : c.points[i]? = some p1)
    (hf1 : c.flags[i]? = some PointFlags.CONTROL_POINT_0)
    (hp2 : c.points[i + 1]? = some p2)
    (hf2 : c.flags[i + 1]? = some PointFlags.empty) :
    ContourIter.next ⟨c, i⟩ =
      some (some (Segment.quadratic ⟨p0, p2⟩ p1, ⟨c, i + 2⟩)) := by
  have e1 : (i = c.points.length + 1) = False := eq_false (by omega)
  have e2 : (i = c.points.length) = False := eq_false (by omega)
  unfold ContourIter.next
  simp [e1, e2, hp0, hp1, hf1, hp2, hf2]

lemma next_cubic_step (c : Contour) (i : Nat) (p0 p1 p2 p3 : Point2DF32)
    (hlt : i < c.points.length)
    (hp0 : c.points[i - 1]? = some p0) (hp1 : c.points[i]? = some p1)
    (hf1 : c.flags[i]? = some PointFlags.CONTROL_POINT_0)
    (hp2 : c.points[i + 1]? = some p2)
    (hf2 : c.flags[i + 1]? = some PointFlags.CONTROL_POINT_1)
    (hp3 : c.points[i + 2]? = some p3)
    (hf3 : c.flags[i + 2]? = some PointFlags.empty) :
    ContourIter.next ⟨c, i⟩ =
      some (some (Segment.cubic ⟨p0, p3⟩ ⟨p1, p2⟩, ⟨c, i + 3⟩)) := by
  have e1 : (i = c.points.length + 1) = False := eq_false (by omega)
  have e2 : (i = c.points.length) = False := eq_false (by omega)
  unfold ContourIter.next
  simp [e1, e2, hp0, hp1, hf1, hp2, hf2, hp3, hf3]

lemma expectedSegs_nil (p0 pf : Point2DF32) (ps : List Point2DF32) :
    expectedSegs p0 pf ps [] = [Segment.line ⟨p0, pf⟩] := by
  rw [expectedSegs.eq_def]

lemma expectedSegs_line (p0 pf p1 : Point2DF32) (ps1 : List Point2DF32)
    (fs1 : List PointFlags) :
    expectedSegs p0 pf (p1 :: ps1) (PointFlags.empty :: fs1) =
      Segment.line ⟨p0, p1⟩ :: expectedSegs p1 pf ps1 fs1 := by
  rw [expectedSegs.eq_def]
  simp only [PointFlags.empty]

lemma expectedSegs_quad (p0 pf p1 p2 : Point2DF32) (ps2 : List Point2DF32)
    (fs2 : List PointFlags) :
    expectedSegs p0 pf (p1 :: p2 :: ps2)
        (PointFlags.CONTROL_POINT_0 :: PointFlags.empty :: fs2) =
      Segment.quadratic ⟨p0, p2⟩ p1 :: expectedSegs p2 pf ps2 fs2 := by
  rw [expectedSegs.eq_def]
  simp only [PointFlags.empty, PointFlags.CONTROL_POINT_0]

lemma expectedSegs_cubic (p0 pf p1 p2 p3 : Point2DF32) (ps3 : List Point2DF32)
    (fs3 : List PointFlags) :
    expectedSegs p0 pf (p1 :: p2 :: p3 :: ps3)
        (PointFlags.CONTROL_POINT_0 :: PointFlags.CONTROL_POINT_1 ::
         PointFlags.empty :: fs3) =
      Segment.cubic ⟨p0, p3⟩ ⟨p1, p2⟩ :: expectedSegs p3 pf ps3 fs3 := by
  rw [expectedSegs.eq_def]
  simp only [PointFlags.empty, PointFlags.CONTROL_POINT_0, PointFlags.CONTROL_POINT_1]

/-! What the iterator produces over any structurally valid flag suffix. -/

lemma runChar {fl : List PointFlags} (hb : BlocksOk fl) :
    ∀ (c : Contour) (i : Nat) (p0 pf : Point2DF32) (fuel : Nat),
      c.flags.length = c.points.length →
      1 ≤ i → i ≤ c.points.length →
      c.flags.drop i = fl →
      c.points[i - 1]? = some p0 →
      c.points[0]? = some pf →
      fl.length + 1 ≤ fuel →
      runIter fuel ⟨c, i⟩ = some (expectedSegs p0 pf (c.points.drop i) fl) := by
  induction hb with
  | nil =>
    intro c i p0 pf fuel hlen h1 hile hdrop hp0 hpf hfuel
    have hi : i = c.points.length := by
      have hl := congrArg List.length hdrop
      simp only [List.length_drop, List.length_nil] at hl
      omega
    have hdropP : c.points.drop i = [] := by rw [hi, List.drop_length]
    obtain ⟨f2, rfl⟩ : ∃ f2, fuel = f2 + 1 := ⟨fuel - 1, by omega⟩
    rw [runIter_yield f2 _ _ _ (next_closing c i p0 pf hi h1 hp0 hpf),
        runIter_done f2 _ (next_past_end c (i + 1) (by omega)), hdropP,
        expectedSegs_nil]
    rfl
  | line hb ih =>
    rename_i t
    intro c i p0 pf fuel hlen h1 hile hdrop hp0 hpf hfuel
    have hl := congrArg List.length hdrop
    simp only [List.length_drop, List.length_cons] at hl
    have hilt : i < c.points.length := by omega
    obtain ⟨p1, t1, hpt⟩ : ∃ a b, c.points.drop i = a :: b := by
      cases hp : c.points.drop i with
      | nil =>
        exfalso
        have := congrArg List.length hp
        simp only [List.length_drop, List.length_nil] at this
        omega
      | cons a b => exact ⟨a, b, rfl⟩
    have hp1 : c.points[i]? = some p1 := by
      have h0 := List.getElem?_drop c.points i 0
      rw [hpt] at h0
      simpa using h0.symm
    have hf1 : c.flags[i]? = some PointFlags.empty := by
      have h0 := List.getElem?_drop c.flags i 0
      rw [hdrop] at h0
      simpa using h0.symm
    have hdt : c.flags.drop (i + 1) = t := by
      have h0 := List.drop_drop 1 i c.flags
      rw [hdrop] at h0
      simpa [Nat.add_comm] using h0.symm
    have hdtP : c.points.drop (i + 1) = t1 := by
      have h0 := List.drop_drop 1 i c.points
      rw [hpt] at h0
      simpa [Nat.add_comm] using h0.symm
    obtain ⟨f2, rfl⟩ : ∃ f2, fuel = f2 + 1 := ⟨fuel - 1, by omega⟩
    rw [runIter_yield f2 _ _ _ (next_line_step c i p0 p1 hilt hp0 hp1 hf1)]
    rw [ih c (i + 1) p1 pf f2 hlen (by omega) (by omega) hdt (by simpa using hp1) hpf
        (by simp at hfuel ⊢; omega)]
    rw [hpt, hdtP, expectedSegs_line]
    rfl
  | quad hb ih =>
    rename_i t
    intro c i p0 pf fuel hlen h1 hile hdrop hp0 hpf hfuel
    have hl := congrArg List.length hdrop
    simp only [List.length_drop, List.length_cons] at hl
    have hilt : i < c.points.length := by omega
    obtain ⟨p1, r1, hpt⟩ : ∃ a b, c.points.drop i = a :: b := by
      cases hp : c.points.drop i with
      | nil =>
        exfalso
        have := congrArg List.length hp
        simp only [List.length_drop, List.length_nil] at this
        omega
      | cons a b => exact ⟨a, b, rfl⟩
    obtain ⟨p2, t2, hr1⟩ : ∃ a b, r1 = a :: b := by
      cases hp : r1 with
      | nil =>
        exfalso
        have := congrArg List.length hpt
        simp only [List.length_drop, hp, List.length_cons, List.length_nil] at this
        omega
      | cons a b => exact ⟨a, b, rfl⟩
    subst hr1
    have hp1 : c.points[i]? = some p1 := by
      have h0 := List.getElem?_drop c.points i 0
      rw [hpt] at h0
      simpa using h0.symm
    have hp2 : c.points[i + 1]? = some p2 := by
      have h0 := List.getElem?_drop c.points i 1
      rw [hpt] at h0
      simpa using h0.symm
    have hf1 : c.flags[i]? = some PointFlags.CONTROL_POINT_0 := by
      have h0 := List.getElem?_drop c.flags i 0
      rw [hdrop] at h0
      simpa using h0.symm
    have hf2 : c.flags[i + 1]? = some PointFlags.empty := by
      have h0 := List.getElem?_drop c.flags i 1
      rw [hdrop] at h0
      simpa using h0.symm
    have hdt : c.flags.drop (i + 2) = t := by
      have h0 := List.drop_drop 2 i c.flags
      rw [hdrop] at h0
      simpa [Nat.add_comm] using h0.symm
    have hdtP : c.points.drop (i + 2) = t2 := by
      have h0 := List.drop_drop 2 i c.points
      rw [hpt] at h0
      simpa [Nat.add_comm] using h0.symm
    obtain ⟨f2, rfl⟩ : ∃ f2, fuel = f2 + 1 := ⟨fuel - 1, by omega⟩
    rw [runIter_yield f2 _ _ _
        (next_quad_step c i p0 p1 p2 hilt hp0 hp1 hf1 hp2 hf2)]
    rw [ih c (i + 2) p2 pf f2 hlen (by omega) (by omega) hdt (by simpa using hp2) hpf
        (by simp at hfuel ⊢; omega)]
    rw [hpt, hdtP, expectedSegs_quad]
    rfl
  | cubic hb ih =>
    rename_i t
    intro c i p0 pf fuel hlen h1 hile hdrop hp0 hpf hfuel
    have hl := congrArg List.length hdrop
    simp only [List.length_drop, List.length_cons] at hl
    have hilt : i < c.points.length := by omega
    obtain ⟨p1, r1, hpt⟩ : ∃ a b, c.points.drop i = a :: b := by
      cases hp : c.points.drop i with
      | nil =>
        exfalso
        have := congrArg List.length hp
        simp only [List.length_drop, List.length_nil] at this
        omega
      | cons a b => exact ⟨a, b, rfl⟩
    obtain ⟨p2, r2, hr1⟩ : ∃ a b, r1 = a :: b := by
      cases hp : r1 with
      | nil =>
        exfalso
        have := congrArg List.length hpt
        simp only [List.length_drop, hp, List.length_cons, List.length_nil] at this
        omega
      | cons a b => exact ⟨a, b, rfl⟩
    subst hr1
    obtain ⟨p3, t3, hr2⟩ : ∃ a b, r2 = a :: b := by
      cases hp : r2 with
      | nil =>
        exfalso
        have := congrArg List.length hpt
        simp only [List.length_drop, hp, List.length_cons, List.length_nil] at this
        omega
      | cons a b => exact ⟨a, b, rfl⟩
    subst hr2
    have hp1 : c.points[i]? = some p1 := by
      have h0 := List.getElem?_drop c.points i 0
      rw [hpt] at h0
      simpa using h0.symm
    have hp2 : c.points[i + 1]? = some p2 := by
      have h0 := List.getElem?_drop c.points i 1
      rw [hpt] at h0
      simpa using h0.symm
    have hp3 : c.points[i + 2]? = some p3 := by
      have h0 := List.getElem?_drop c.points i 2
      rw [hpt] at h0
      simpa using h0.symm
    have hf1 : c.flags[i]? = some PointFlags.CONTROL_POINT_0 := by
      have h0 := List.getElem?_drop c.flags i 0
      rw [hdrop] at h0
      simpa using h0.symm
    have hf2 : c.flags[i + 1]? = some PointFlags.CONTROL_POINT_1 := by
      have h0 := List.getElem?_drop c.flags i 1
      rw [hdrop] at h0
      simpa using h0.symm
    have hf3 : c.flags[i + 2]? = some PointFlags.empty := by
      have h0 := List.getElem?_drop c.flags i 2
      rw [hdrop] at h0
      simpa using h0.symm
    have hdt : c.flags.drop (i + 3) = t := by
      have h0 := List.drop_drop 3 i c.flags
      rw [hdrop] at h0
      simpa [Nat.add_comm] using h0.symm
    have hdtP : c.points.drop (i + 3) = t3 := by
      have h0 := List.drop_drop 3 i c.points
      rw [hpt] at h0
      simpa [Nat.add_comm] using h0.symm
    obtain ⟨f2, rfl⟩ : ∃ f2, fuel = f2 + 1 := ⟨fuel - 1, by omega⟩
    rw [runIter_yield f2 _ _ _
        (next_cubic_step c i p0 p1 p2 p3 hilt hp0 hp1 hf1 hp2 hf2 hp3 hf3)]
    rw [ih c (i + 3) p3 pf f2 hlen (by omega) (by omega) hdt (by simpa using hp3) hpf
        (by simp at hfuel ⊢; omega)]
    rw [hpt, hdtP, expectedSegs_cubic]
    rfl

/-! Counting segments against endpoint flags, and replaying segments. -/

lemma length_expectedSegs {fl : List PointFlags} (hb : BlocksOk fl) :
    ∀ (ps : List Point2DF32) (p0 pf : Point2DF32), ps.length = fl.length →
      (expectedSegs p0 pf ps fl).length =
        fl.countP (fun f => !(f.cp0 || f.cp1)) + 1 := by
  induction hb with
  | nil =>
    intro ps p0 pf h
    rw [expectedSegs_nil]
    rfl
  | line hb ih =>
    intro ps p0 pf h
    match ps, h with
    | p1 :: ps1, h =>
      rw [expectedSegs_line]
      simp only [List.length_cons, List.countP_cons]
      rw [ih ps1 p1 pf (by simpa using h)]
      simp
  | quad hb ih =>
    intro ps p0 pf h
    match ps, h with
    | p1 :: p2 :: ps2, h =>
      rw [expectedSegs_quad]
      simp only [List.length_cons, List.countP_cons]
      rw [ih ps2 p2 pf (by simpa using h)]
      simp
  | cubic hb ih =>
    intro ps p0 pf h
    match ps, h with
    | p1 :: p2 :: p3 :: ps3, h =>
      rw [expectedSegs_cubic]
      simp only [List.length_cons, List.countP_cons]
      rw [ih ps3 p3 pf (by simpa using h)]
      simp

lemma replay_app {fl : List PointFlags} (hb : BlocksOk fl) :
    ∀ (ps : List Point2DF32) (X : Contour) (p0 pf : Point2DF32),
      ps.length = fl.length → X.points ≠ [] →
      ((expectedSegs p0 pf ps fl).foldl Contour.push_segment X).points =
          X.points ++ ps ++ [pf] ∧
      ((expectedSegs p0 pf ps fl).foldl Contour.push_segment X).flags =
          X.flags ++ fl ++ [PointFlags.empty] := by
  induction hb with
  | nil =>
    intro ps X p0 pf h hne
    have hps : ps = [] := List.length_eq_zero.mp (by simpa using h)
    subst hps
    have hX : X.points.isEmpty = false := by
      simp [List.isEmpty_eq_false, hne]
    rw [expectedSegs_nil]
    rw [List.foldl_cons, List.foldl_nil, push_segment_line X _ rfl]
    simp [hX, Segment.line]
  | line hb ih =>
    intro ps X p0 pf h hne
    match ps, h with
    | p1 :: ps1, h =>
      have hX : X.points.isEmpty = false := by
        simp [List.isEmpty_eq_false, hne]
      rw [expectedSegs_line, List.foldl_cons, push_segment_line X _ rfl]
      simp only [hX, Bool.false_eq_true, if_false, Segment.line]
      obtain ⟨ihp, ihf⟩ := ih ps1 (X.push_point p1 PointFlags.empty) p1 pf
        (by simpa using h) (by simp)
      constructor
      · rw [ihp]
        simp
      · rw [ihf]
        simp
  | quad hb ih =>
    intro ps X p0 pf h hne
    match ps, h with
    | p1 :: p2 :: ps2, h =>
      have hX : X.points.isEmpty = false := by
        simp [List.isEmpty_eq_false, hne]
      rw [expectedSegs_quad, List.foldl_cons, push_segment_quadratic X _ rfl]
      simp only [hX, Bool.false_eq_true, if_false, Segment.quadratic]
      obtain ⟨ihp, ihf⟩ := ih ps2
        ((X.push_point p1 PointFlags.CONTROL_POINT_0).push_point p2 PointFlags.empty)
        p2 pf (by simpa using h) (by simp)
      constructor
      · rw [ihp]
        simp
      · rw [ihf]
        simp
  | cubic hb ih =>
    intro ps X p0 pf h hne
    match ps, h with
    | p1 :: p2 :: p3 :: ps3, h =>
      have hX : X.points.isEmpty = false := by
        simp [List.isEmpty_eq_false, hne]
      rw [expectedSegs_cubic, List.foldl_cons, push_segment_cubic X _ rfl]
      simp only [hX, Bool.false_eq_true, if_false, Segment.cubic]
      obtain ⟨ihp, ihf⟩ := ih ps3
        (((X.push_point p1 PointFlags.CONTROL_POINT_0).push_point p2
            PointFlags.CONTROL_POINT_1).push_point p3 PointFlags.empty)
        p3 pf (by simpa using h) (by simp)
      constructor
      · rw [ihp]
        simp
      · rw [ihf]
        simp

lemma BlocksOk_tail_of_empty {ft : List PointFlags}
    (h : BlocksOk (PointFlags.empty :: ft)) : BlocksOk ft := by
  cases h with
  | line h => exact h

lemma contourSegments_nil (c : Contour) (h : c.points = []) :
    contourSegments c = some [] := by
  unfold contourSegments Contour.iter
  exact runIter_done _ _ (next_past_end c 1 (by simp [h]))

lemma contourSegments_wf (c : Contour) (h1 : c.flags.length = c.points.length)
    (h2 : c.flags.headD PointFlags.empty = PointFlags.empty)
    (h3 : BlocksOk c.flags) (hne : c.points ≠ []) :
    contourSegments c =
      some (expectedSegs (c.points.headD ⟨0, 0⟩) (c.points.headD ⟨0, 0⟩)
        (c.points.drop 1) (c.flags.drop 1)) := by
  obtain ⟨p, rest, hp⟩ : ∃ p rest, c.points = p :: rest := by
    cases hpts : c.points with
    | nil => exact absurd hpts hne
    | cons a b => exact ⟨a, b, rfl⟩
  obtain ⟨f0, ft, hf⟩ : ∃ f0 ft, c.flags = f0 :: ft := by
    cases hfl : c.flags with
    | nil =>
      exfalso
      rw [hfl, hp] at h1
      simp at h1
    | cons a b => exact ⟨a, b, rfl⟩
  have hf0 : f0 = PointFlags.empty := by
    rw [hf] at h2
    simpa using h2
  subst hf0
  have hbt : BlocksOk ft := BlocksOk_tail_of_empty (hf ▸ h3)
  have hlen2 : ft.length = rest.length := by
    rw [hf, hp] at h1
    simpa using h1
  unfold contourSegments Contour.iter
  rw [runChar hbt c 1 p p (c.len + 1) h1 (by omega) (by rw [hp]; simp)
      (by rw [hf]; simp) (by rw [hp]; simp) (by rw [hp]; simp)
      (by simp [Contour.len_eq, hp, hlen2])]
  rw [hp, hf]
  simp

@[simp]
lemma Contour.new_points : Contour.new.points = [] := rfl

@[simp]
lemma Contour.new_flags : Contour.new.flags = [] := rfl

lemma push_first_line (b : LineSegmentF32) :
    Contour.new.push_segment (Segment.line b) =
      (Contour.new.push_point b.fromPt PointFlags.empty).push_point
        b.toPt PointFlags.empty := by
  rw [push_segment_line _ _ rfl]
  rfl

lemma push_first_quadratic (b : LineSegmentF32) (q : Point2DF32) :
    Contour.new.push_segment (Segment.quadratic b q) =
      ((Contour.new.push_point b.fromPt PointFlags.empty).push_point
        q PointFlags.CONTROL_POINT_0).push_point b.toPt PointFlags.empty := by
  rw [push_segment_quadratic _ _ rfl]
  rfl

lemma push_first_cubic (b cs : LineSegmentF32) :
    Contour.new.push_segment (Segment.cubic b cs) =
      (((Contour.new.push_point b.fromPt PointFlags.empty).push_point
          cs.fromPt PointFlags.CONTROL_POINT_0).push_point
          cs.toPt PointFlags.CONTROL_POINT_1).push_point b.toPt PointFlags.empty := by
  rw [push_segment_cubic _ _ rfl]
  rfl

lemma outline_debug_singleton (c : Contour) (b : Rect) :
    outline_debug ⟨[c], b⟩ = contour_debug c := by
  unfold outline_debug
  cases h : contour_debug c with
  | none => simp [List.mapM, List.mapM.loop, h]
  | some s =>
    simp only [List.mapM, List.mapM.loop, h]
    rfl

/-! The claim theorems. -/

/-- Claim C5, counterexample: on a one-point contour (N = 1), the claimed
identity `add_to_point_index(i, k) = (i + k) mod N` fails at i = 0, k = 2:
the single conditional subtraction returns 1, but (0 + 2) mod 1 = 0. -/
theorem C5_counterexample :
    onePointContour7.add_to_point_index 0 2 ≠ (0 + 2) % onePointContour7.len := by
  decide

/-- Claim C5 (amended): for every non-empty contour of length N, every
valid point index i and displacement k with k ≤ 3, `add_to_point_index`
returns (i + k) mod N provided i + k < 2N (which always holds when N ≥ 3,
and in every call site of the source, but not for all k ≤ 3 when
N ∈ {1, 2}). -/
theorem C5_add_mod_theorem (c : Contour) (i k : Nat)
    (hi : i < c.len) (hk : k ≤ 3) (hlt : i + k < 2 * c.len) :
    c.add_to_point_index i k = (i + k) % c.len := by
  simp only [Contour.add_to_point_index]
  split_ifs with h
  · rw [Nat.mod_eq_sub_mod h, Nat.mod_eq_of_lt (by omega)]
  · rw [Nat.mod_eq_of_lt (by omega)]

/-- Claim C5, witness: the amended theorem applied to the three-point
triangle contour at i = 0, k = 2. -/
theorem C5_witness :
    triContour.add_to_point_index 0 2 = (0 + 2) % triContour.len :=
  C5_add_mod_theorem triContour 0 2 (by decide) (by decide) (by decide)

/-- Claim C7: circular index closure, as stated.  For every non-empty
contour of length N and every valid index i,
`next_point_index_of (prev_point_index_of i) = i`, and iterating
`next_point_index_of` N times from i returns i. -/
theorem C7_theorem (c : Contour) (i : Nat) (hne : c.points ≠ [])
    (hi : i < c.len) :
    c.next_point_index_of (c.prev_point_index_of i) = i ∧
    (c.next_point_index_of)^[c.len] i = i := by
  have hn : 0 < c.len := by
    simp [Contour.len_eq, List.length_pos, hne]
  constructor
  · simp only [Contour.next_point_index_of, Contour.prev_point_index_of] at *
    split_ifs <;> omega
  · have hnext : ∀ j, j < c.len → c.next_point_index_of j = (j + 1) % c.len := by
      intro j hj
      simp only [Contour.next_point_index_of]
      split_ifs with h
      · rw [show j + 1 = c.len from by omega, Nat.mod_self]
      · rw [Nat.mod_eq_of_lt (by omega)]
    have hiter : ∀ (k j : Nat), j < c.len →
        (c.next_point_index_of)^[k] j = (j + k) % c.len := by
      intro k
      induction k with
      | zero =>
        intro j hj
        simp only [Function.iterate_zero_apply, Nat.add_zero]
        exact (Nat.mod_eq_of_lt hj).symm
      | succ k ih =>
        intro j hj
        rw [Function.iterate_succ_apply, hnext j hj,
            ih ((j + 1) % c.len) (Nat.mod_lt _ hn), Nat.mod_add_mod]
        congr 1
        omega
    rw [hiter c.len i hi, Nat.add_mod_right, Nat.mod_eq_of_lt hi]

/-- Claim C7, witness: the closure equalities on the triangle contour at
index 1. -/
theorem C7_witness :
    triContour.next_point_index_of (triContour.prev_point_index_of 1) = 1 ∧
    (triContour.next_point_index_of)^[triContour.len] 1 = 1 :=
  C7_theorem triContour 1 (by decide) (by decide)

/-- Claim C9: precondition violations fail fatally.  Packing a PointIndex
with a contour ordinal above 4095, or a point ordinal above 1048575, hits
a fatal range assertion (modelled as the `none` result), and calling
`segment_after` on an index whose flags mark it as a control point hits
the fatal endpoint assertion instead of returning a segment. -/
theorem C9_theorem :
    (∀ contour point : Nat, 4095 < contour →
      PointIndex.new contour point = Option.none) ∧
    (∀ contour point : Nat, 1048575 < point →
      PointIndex.new contour point = Option.none) ∧
    (∀ (c : Contour) (i : Nat) (f : PointFlags), c.flags[i]? = some f →
      (f.cp0 || f.cp1) = true → c.segment_after i = Option.none) := by
  refine ⟨?_, ?_, ?_⟩
  · intro contour point h
    simp only [PointIndex.new]
    rw [if_pos (by omega)]
  · intro contour point h
    simp only [PointIndex.new]
    split_ifs <;> first | rfl | omega
  · intro c i f hget hflag
    simp only [Contour.segment_after, hget, hflag]
    rfl

/-- Claim C9, witness: the packing assertions at 4096 and 1048576, and
the endpoint assertion at the control point of the quadratic contour. -/
theorem C9_witness :
    PointIndex.new 4096 0 = Option.none ∧
    PointIndex.new 0 1048576 = Option.none ∧
    quadContour.segment_after 1 = Option.none :=
  ⟨C9_theorem.1 4096 0 (by decide), C9_theorem.2.1 0 1048576 (by decide),
   C9_theorem.2.2 quadContour 1 PointFlags.CONTROL_POINT_0 (by decide) (by decide)⟩

/-- Claim C10: iterating an empty contour is safe and produces no
segments.  The iterator starts at internal index 1; for a contour with no
points this index already equals length + 1, so the first step reports
exhaustion without any array access (in particular without the panic case
of the model), and the collected segment list is empty. -/
theorem C10_theorem (c : Contour) (h : c.points = []) :
    c.iter.index = 1 ∧ c.iter.index = c.len + 1 ∧
    c.iter.next = some Option.none ∧ contourSegments c = some [] := by
  refine ⟨rfl, by simp [Contour.iter, Contour.len_eq, h], ?_, contourSegments_nil c h⟩
  exact next_past_end c 1 (by simp [h])

/-- Claim C10, witness: the empty-contour iteration facts at the freshly
constructed empty contour. -/
theorem C10_witness :
    Contour.new.iter.index = 1 ∧ Contour.new.iter.index = Contour.new.len + 1 ∧
    Contour.new.iter.next = some Option.none ∧
    contourSegments Contour.new = some [] :=
  C10_theorem Contour.new rfl

/-- Claim C6: segment count law.  For every contour that is well formed
per the data model (flags in 1:1 correspondence with points, first point
an endpoint, flags a valid concatenation of segment blocks), iteration
succeeds and the number of produced segments equals the number of points
whose flags mark them as endpoints (neither control bit set). -/
theorem C6_theorem (c : Contour) (hwf : c.WellFormed) :
    (contourSegments c).isSome = true ∧
    ((contourSegments c).getD []).length =
      c.flags.countP (fun f => !(f.cp0 || f.cp1)) := by
  obtain ⟨h1, h2, h3⟩ := hwf
  by_cases hne : c.points = []
  · have hfl : c.flags = [] := by
      rw [hne] at h1
      exact List.length_eq_zero.mp h1
    rw [contourSegments_nil c hne]
    simp [hfl]
  · obtain ⟨p, rest, hp⟩ : ∃ p rest, c.points = p :: rest := by
      cases hpts : c.points with
      | nil => exact absurd hpts hne
      | cons a b => exact ⟨a, b, rfl⟩
    obtain ⟨ft, hf⟩ : ∃ ft, c.flags = PointFlags.empty :: ft := by
      cases hfl : c.flags with
      | nil =>
        exfalso
        rw [hfl, hp] at h1
        simp at h1
      | cons a b =>
        refine ⟨b, ?_⟩
        have ha := h2
        rw [hfl] at ha
        simp only [List.headD_cons] at ha
        rw [ha]
    have hbt : BlocksOk ft := BlocksOk_tail_of_empty (hf ▸ h3)
    have hbd : BlocksOk (c.flags.drop 1) := by
      rw [hf]
      simpa using hbt
    rw [contourSegments_wf c h1 h2 h3 hne]
    refine ⟨rfl, ?_⟩
    simp only [Option.getD_some]
    rw [length_expectedSegs hbd (c.points.drop 1) _ _
        (by simp [List.length_drop, h1])]
    rw [hf]
    simp

/-- Claim C6, witness: the count law at the well-formed quadratic contour
(one quadratic segment plus the implicit closing line: two segments, two
endpoints). -/
theorem C6_witness :
    (contourSegments quadContour).isSome = true ∧
    ((contourSegments quadContour).getD []).length =
      quadContour.flags.countP (fun f => !(f.cp0 || f.cp1)) :=
  C6_theorem quadContour
    ⟨by decide, by decide, BlocksOk.line (BlocksOk.quad BlocksOk.nil)⟩

/-- Claim C1, counterexample: the round-trip law fails as stated.  On the
valid one-point contour, iterating yields the implicit closing line and
replaying it through `push_segment` produces two points, not the original
single point. -/
theorem C1_counterexample :
    (replayContour ((contourSegments onePointContour).getD [])).points ≠
      onePointContour.points := by
  decide

/-- Claim C1 (amended): for every non-empty well-formed contour C,
iterating succeeds, and replaying every yielded segment in order into a
fresh contour reproduces C's points followed by one extra copy of the
first point, and C's flags followed by one extra endpoint flag (the
implicit closing segment's end point is pushed explicitly); the arrays are
therefore not identical to C's, but C's arrays extended by that one
point. -/
theorem C1_theorem (c : Contour) (hwf : c.WellFormed) (hne : c.points ≠ []) :
    (contourSegments c).isSome = true ∧
    (replayContour ((contourSegments c).getD [])).points =
      c.points ++ [c.points.headD ⟨0, 0⟩] ∧
    (replayContour ((contourSegments c).getD [])).flags =
      c.flags ++ [PointFlags.empty] := by
  obtain ⟨h1, h2, h3⟩ := hwf
  obtain ⟨p, rest, hp⟩ : ∃ p rest, c.points = p :: rest := by
    cases hpts : c.points with
    | nil => exact absurd hpts hne
    | cons a b => exact ⟨a, b, rfl⟩
  obtain ⟨ft, hf⟩ : ∃ ft, c.flags = PointFlags.empty :: ft := by
    cases hfl : c.flags with
    | nil =>
      exfalso
      rw [hfl, hp] at h1
      simp at h1
    | cons a b =>
      refine ⟨b, ?_⟩
      have ha := h2
      rw [hfl] at ha
      simp only [List.headD_cons] at ha
      rw [ha]
  have hbt : BlocksOk ft := BlocksOk_tail_of_empty (hf ▸ h3)
  have hlen2 : rest.length = ft.length := by
    rw [hp, hf] at h1
    simpa using h1.symm
  rw [contourSegments_wf c h1 h2 h3 hne]
  refine ⟨rfl, ?_⟩
  rw [hp, hf]
  simp only [Option.getD_some, List.headD_cons, List.drop_succ_cons, List.drop_zero]
  unfold replayContour
  cases hbt with
  | nil =>
    have hrest : rest = [] := List.length_eq_zero.mp (by simpa using hlen2)
    subst hrest
    rw [expectedSegs_nil, List.foldl_cons, List.foldl_nil, push_first_line]
    exact ⟨rfl, rfl⟩
  | line hbX =>
    rename_i t
    obtain ⟨p1, rest1, hr⟩ : ∃ a b, rest = a :: b := by
      cases hrr : rest with
      | nil =>
        exfalso
        rw [hrr] at hlen2
        simp at hlen2
      | cons a b => exact ⟨a, b, rfl⟩
    subst hr
    rw [expectedSegs_line, List.foldl_cons, push_first_line]
    obtain ⟨rp, rf⟩ := replay_app hbX rest1
      ((Contour.new.push_point p PointFlags.empty).push_point p1 PointFlags.empty)
      p1 p (by simpa using hlen2) (by simp)
    constructor
    · rw [rp]
      simp
    · rw [rf]
      simp
  | quad hbX =>
    rename_i t
    obtain ⟨p1, p2, rest2, hr⟩ : ∃ a b r, rest = a :: b :: r := by
      cases hr1 : rest with
      | nil =>
        exfalso
        rw [hr1] at hlen2
        simp at hlen2
      | cons a r1 =>
        cases hr2 : r1 with
        | nil =>
          exfalso
          rw [hr1, hr2] at hlen2
          simp at hlen2
        | cons b r2 => exact ⟨a, b, r2, rfl⟩
    subst hr
    rw [expectedSegs_quad, List.foldl_cons, push_first_quadratic]
    obtain ⟨rp, rf⟩ := replay_app hbX rest2
      (((Contour.new.push_point p PointFlags.empty).push_point p1
          PointFlags.CONTROL_POINT_0).push_point p2 PointFlags.empty)
      p2 p (by simpa using hlen2) (by simp)
    constructor
    · rw [rp]
      simp
    · rw [rf]
      simp
  | cubic hbX =>
    rename_i t
    obtain ⟨p1, p2, p3, rest3, hr⟩ : ∃ a b d r, rest = a :: b :: d :: r := by
      cases hr1 : rest with
      | nil =>
        exfalso
        rw [hr1] at hlen2
        simp at hlen2
      | cons a r1 =>
        cases hr2 : r1 with
        | nil =>
          exfalso
          rw [hr1, hr2] at hlen2
          simp at hlen2
        | cons b r2 =>
          cases hr3 : r2 with
          | nil =>
            exfalso
            rw [hr1, hr2, hr3] at hlen2
            simp at hlen2
          | cons d r3 => exact ⟨a, b, d, r3, rfl⟩
    subst hr
    rw [expectedSegs_cubic, List.foldl_cons, push_first_cubic]
    obtain ⟨rp, rf⟩ := replay_app hbX rest3
      ((((Contour.new.push_point p PointFlags.empty).push_point p1
          PointFlags.CONTROL_POINT_0).push_point p2
          PointFlags.CONTROL_POINT_1).push_point p3 PointFlags.empty)
      p3 p (by simpa using hlen2) (by simp)
    constructor
    · rw [rp]
      simp
    · rw [rf]
      simp

/-- Claim C1, witness: the amended round-trip equalities at the
three-endpoint triangle contour. -/
theorem C1_witness :
    (contourSegments triContour).isSome = true ∧
    (replayContour ((contourSegments triContour).getD [])).points =
      triContour.points ++ [triContour.points.headD ⟨0, 0⟩] ∧
    (replayContour ((contourSegments triContour).getD [])).flags =
      triContour.flags ++ [PointFlags.empty] :=
  C1_theorem triContour
    ⟨by decide, by decide,
     BlocksOk.line (BlocksOk.line (BlocksOk.line BlocksOk.nil))⟩
    (by decide)

/-- Claim C2, counterexample: two subpaths each opened by a
first-in-subpath line segment and never explicitly closed.  The second
first-in-subpath flush pushes the first contour into the outline without
unioning its bounds, so the outline's bounds differ from the union of the
bounds of all contours it contains. -/
theorem C2_counterexample :
    (Outline.from_segments openPairStreamA).bounds ≠
      (boundsAccOf (Outline.from_segments openPairStreamA).contours).getD Rect.zero := by
  decide

/-- Claim C2 (amended): a contour flushed by a first-in-subpath trigger
is pushed without unioning its bounds into the running aggregate; only the
closes-subpath flush and the end-of-stream flush union bounds.
Consequently, whenever no segment arrives flagged first-in-subpath while
the contour in progress is non-empty (`noFirstFlush`), the resulting
outline's bounds do equal the union of the bounds of all contours it
contains, or the zero box if there are none. -/
theorem C2_theorem (l : List Segment) (h : noFirstFlush true l = true) :
    (Outline.from_segments l).bounds =
      (boundsAccOf (Outline.from_segments l).contours).getD Rect.zero := by
  unfold Outline.from_segments
  exact from_segments_loop_bounds l [] Contour.new Option.none rfl h

/-- Claim C2, witness: the bounds-union equality on the closed-triangle
stream, whose only flushes are bounds-unioning ones. -/
theorem C2_witness :
    noFirstFlush true (triangleStream ⟨0, 0⟩ ⟨10, 0⟩ ⟨5, 10⟩) = true ∧
    (Outline.from_segments (triangleStream ⟨0, 0⟩ ⟨10, 0⟩ ⟨5, 10⟩)).bounds =
      (boundsAccOf
        (Outline.from_segments (triangleStream ⟨0, 0⟩ ⟨10, 0⟩ ⟨5, 10⟩)).contours).getD
        Rect.zero :=
  ⟨by decide, C2_theorem _ (by decide)⟩

/-- Claim C4, counterexample: an outline built by `from_segments` from
two unclosed subpaths has cached bounds that are not the exact min/max
box of its contained points (the first contour's bounds were never
unioned), so the claimed invariant does not hold for every outline. -/
theorem C4_counterexample :
    (Outline.from_segments openPairStreamB).bounds ≠
      exactRect (allPoints (Outline.from_segments openPairStreamB)) := by
  decide

/-- Claim C4 (amended): the bounds invariant holds at the contour level
and is preserved by every contour mutation: push_point, push_segment,
transform, apply_perspective and monotonic rebuilding all leave the
cached contour bounds equal to the exact min/max box of the points.  At
the outline level, transform, apply_perspective and both clip operations
re-establish the outline bounds as the exact min/max box over all
contained points (for outlines of non-empty contours, and clippers whose
outputs carry exact bounds, per the external clipper contract).  The
invariant is not, however, guaranteed for every outline: `from_segments`
can violate it (see the counterexample), and `Outline::make_monotonic`
leaves the aggregate untouched. -/
theorem C4_theorem :
    (∀ (c : Contour) (p : Point2DF32) (f : PointFlags),
      boundsExact c → boundsExact (c.push_point p f)) ∧
    (∀ (c : Contour) (s : Segment),
      boundsExact c → boundsExact (c.push_segment s)) ∧
    (∀ (t : Point2DF32 → Point2DF32) (c : Contour),
      boundsExact c → boundsExact (c.transform t)) ∧
    (∀ (t : Point2DF32 → Point2DF32) (c : Contour),
      boundsExact c → boundsExact (c.apply_perspective t)) ∧
    (∀ (conv : List Segment → List Segment) (c : Contour),
      boundsExact (c.make_monotonic conv)) ∧
    (∀ (t : Point2DF32 → Point2DF32) (o : Outline),
      (∀ c ∈ o.contours, c.points ≠ []) → outlineExact (o.transform t)) ∧
    (∀ (t : Point2DF32 → Point2DF32) (o : Outline),
      (∀ c ∈ o.contours, c.points ≠ []) → outlineExact (o.apply_perspective t)) ∧
    (∀ (clip : Contour → Contour) (o : Outline),
      (∀ c, boundsExact (clip c)) → outlineExact (o.clip_against_polygon clip)) ∧
    (∀ (clip : Contour → Contour) (o : Outline),
      (∀ c, boundsExact (clip c)) → outlineExact (o.clip_against_rect clip)) :=
  ⟨boundsExact_push_point, boundsExact_push_segment,
   boundsExact_transform, boundsExact_apply_perspective,
   boundsExact_make_monotonic, outlineExact_transform,
   outlineExact_apply_perspective, outlineExact_clip_polygon,
   outlineExact_clip_rect⟩

/-- Claim C4, witness: the preserved invariants instantiated at the
triangle contour, the identity mappings, and a clipper constantly
returning the exact-bounds one-point contour. -/
theorem C4_witness :
    boundsExact (triContour.push_point ⟨20, 20⟩ PointFlags.empty) ∧
    boundsExact (triContour.push_segment (Segment.line ⟨⟨5, 10⟩, ⟨0, 0⟩⟩)) ∧
    boundsExact (triContour.transform (fun p => p)) ∧
    boundsExact (triContour.apply_perspective (fun p => p)) ∧
    boundsExact (triContour.make_monotonic (fun l => l)) ∧
    outlineExact (Outline.transform (fun p => p) ⟨[triContour], Rect.zero⟩) ∧
    outlineExact (Outline.apply_perspective (fun p => p) ⟨[triContour], Rect.zero⟩) ∧
    outlineExact
      (Outline.clip_against_polygon (fun _ => onePointContour)
        ⟨[triContour], Rect.zero⟩) ∧
    outlineExact
      (Outline.clip_against_rect (fun _ => onePointContour)
        ⟨[triContour], Rect.zero⟩) :=
  ⟨C4_theorem.1 triContour ⟨20, 20⟩ PointFlags.empty (by decide),
   C4_theorem.2.1 triContour _ (by decide),
   C4_theorem.2.2.1 (fun p => p) triContour (by decide),
   C4_theorem.2.2.2.1 (fun p => p) triContour (by decide),
   C4_theorem.2.2.2.2.1 (fun l => l) triContour,
   C4_theorem.2.2.2.2.2.1 (fun p => p) ⟨[triContour], Rect.zero⟩ (by decide),
   C4_theorem.2.2.2.2.2.2.1 (fun p => p) ⟨[triContour], Rect.zero⟩ (by decide),
   C4_theorem.2.2.2.2.2.2.2.1 (fun _ => onePointContour) ⟨[triContour], Rect.zero⟩
     (fun _ => (by decide : boundsExact onePointContour)),
   C4_theorem.2.2.2.2.2.2.2.2 (fun _ => onePointContour) ⟨[triContour], Rect.zero⟩
     (fun _ => (by decide : boundsExact onePointContour))⟩

/-- Claim C3, counterexample: on the triangle (0,0), (10,0), (5,10) the
debug rendering is not the claimed `M 0 0 L 10 0 L 5 10 z`; the implicit
closing segment is rendered as an explicit extra ` L 0 0` before ` z`. -/
theorem C3_counterexample :
    outline_debug (Outline.from_segments (triangleStream ⟨0, 0⟩ ⟨10, 0⟩ ⟨5, 10⟩)) ≠
      some ("M 0 0 L 10 0 L 5 10 z") := by
  decide

/-- Claim C3 (amended): building an outline from three Line segments
tracing a closed triangle (first flagged first-in-subpath, last flagged
closes-subpath) produces exactly one contour with exactly the three
points, all endpoints, with contour and outline bounds equal to the
triangle's exact axis-aligned box; the debug rendering is
`M x0 y0 L x1 y1 L x2 y2 L x0 y0 z`, with the closing segment rendered
explicitly. -/
theorem C3_theorem (p0 p1 p2 : Point2DF32) :
    Outline.from_segments (triangleStream p0 p1 p2) =
      { contours := [⟨[p0, p1, p2],
          [PointFlags.empty, PointFlags.empty, PointFlags.empty],
          exactRect [p0, p1, p2]⟩],
        bounds := exactRect [p0, p1, p2] } ∧
    outline_debug (Outline.from_segments (triangleStream p0 p1 p2)) =
      some (triangleDebug p0 p1 p2) := by
  have hb : union_rect (union_rect (union_rect Rect.zero p0 true) p1 false) p2 false =
      exactRect [p0, p1, p2] := by
    have h := scratch_fold [p1, p2] p0 Rect.zero
    simpa using h
  have houtline : Outline.from_segments (triangleStream p0 p1 p2) =
      { contours := [⟨[p0, p1, p2],
          [PointFlags.empty, PointFlags.empty, PointFlags.empty],
          union_rect (union_rect (union_rect Rect.zero p0 true) p1 false) p2 false⟩],
        bounds :=
          union_rect (union_rect (union_rect Rect.zero p0 true) p1 false) p2 false } :=
    rfl
  constructor
  · rw [houtline, hb]
  · rw [houtline, outline_debug_singleton]
    have hsegs : contourSegments ⟨[p0, p1, p2],
        [PointFlags.empty, PointFlags.empty, PointFlags.empty],
        union_rect (union_rect (union_rect Rect.zero p0 true) p1 false) p2 false⟩ =
        some [Segment.line ⟨p0, p1⟩, Segment.line ⟨p1, p2⟩, Segment.line ⟨p2, p0⟩] :=
      rfl
    unfold contour_debug
    rw [hsegs]
    simp [segment_debug, Segment.line, String.join, triangleDebug,
      String.append_assoc, String.append_empty, String.empty_append]

/-- Claim C8, counterexample: the single cubic segment flagged both
first-in-subpath and closes-subpath does not produce a 4-point contour:
the closes-subpath flush fires right after the seed point is pushed, so
the only contour has exactly one point. -/
theorem C8_counterexample :
    ((Outline.from_segments [cubicScenarioSeg]).contours.map
      fun c => c.points.length) ≠ [4] := by
  decide

/-- Claim C8 (amended): a single Cubic segment with baseline (0,0) to
(10,10) and control points (0,10), (10,0), flagged both first-in-subpath
and closes-subpath, produces exactly one contour holding the single
endpoint (0,0): the first-in-subpath branch seeds the baseline start and
the closes-subpath branch then flushes the contour without consuming the
cubic's control or end points.  Its debug rendering is `M 0 0 L 0 0 z`. -/
theorem C8_theorem :
    Outline.from_segments [cubicScenarioSeg] =
      { contours := [⟨[⟨0, 0⟩], [PointFlags.empty], ⟨0, 0, 0, 0⟩⟩],
        bounds := ⟨0, 0, 0, 0⟩ } ∧
    outline_debug (Outline.from_segments [cubicScenarioSeg]) =
      some ("M 0 0 L 0 0 z") :=
  ⟨by decide, by decide⟩

end Pathfinder
